import Mathlib

/-!
Verification of the PTC mainnet ledger engine (ptc_mainnet_daemon.py,
ptc_network_sync.py, ptc_global_network.py).

The SQLite-backed state is embedded as lists of rows; every SQL statement of
the source becomes a state transformer.  Statements that can violate a schema
constraint (PRIMARY KEY, UNIQUE, NOT NULL) return `Except SqlErr`; the Python
try/commit/rollback structure of each mutating method is mirrored by running
its statements through `exceptFoldl` and returning the original state when any
statement fails, exactly as sqlite3 rollback does for an uncommitted
connection.  Monetary amounts and timestamps (Python floats / SQLite REAL)
are modelled as rationals; every concrete amount appearing in the claims
(50, 25, 0.001, 0.25) is exactly representable in binary floating point, so
the rational model agrees with the float computations at all inputs used.
-/

namespace PtcPow

/-- Row of the utxos table.  Nullable columns are Options; created_at is an
Option as well because one INSERT statement of the source omits it even
though the schema declares it NOT NULL with no default. -/
structure UtxoRow where
  txid : String
  output_index : Int
  address : String
  amount : ℚ
  spent_txid : Option String
  spent_at : Option ℚ
  created_at : Option ℚ
deriving Repr, DecidableEq

/-- Row of the blocks table.  merkle_root is an Option because the
INSERT OR REPLACE in _submit_external_block omits it although the schema
declares it NOT NULL with no default.  The block_data TEXT column is
omitted from the model: every INSERT of the source supplies it, and no
behaviour verified here reads it back. -/
structure BlockRow where
  height : Int
  prev_hash : String
  merkle_root : Option String
  timestamp : ℚ
  difficulty : Int
  nonce : Int
  hash : String
deriving Repr, DecidableEq

/-- Input dictionary of a transaction, as produced by get_spendable_utxos:
a reference to a UTXO together with its address and amount. -/
structure InputRef where
  txid : String
  output_index : Int
  address : String
  amount : ℚ
deriving Repr, DecidableEq

/-- Output dictionary of a transaction. -/
structure Output where
  address : String
  amount : ℚ
deriving Repr, DecidableEq

/-- The Transaction dataclass of the source. -/
structure Transaction where
  txid : String
  inputs : List InputRef
  outputs : List Output
  timestamp : ℚ
  fee : ℚ
  ring_size : Int
  bulletproof : Bool
  stealth : Bool
deriving Repr, DecidableEq

/-- The Block dataclass of the source. -/
structure Block where
  height : Int
  prev_hash : String
  merkle_root : String
  timestamp : ℚ
  difficulty : Int
  nonce : Int
  transactions : List Transaction
  hash : String
deriving Repr, DecidableEq

/-- Row of the transactions table. -/
structure TxRow where
  txid : String
  block_height : Int
  inputs : List InputRef
  outputs : List Output
  timestamp : ℚ
  fee : ℚ
  ring_size : Int
  bulletproof : Bool
  stealth : Bool
deriving Repr, DecidableEq

/-- The whole persistent state of the mainnet.db database (the
wallet_addresses table is not relevant to any verified claim). -/
structure ChainState where
  blocks : List BlockRow
  transactions : List TxRow
  utxos : List UtxoRow
deriving Repr, DecidableEq

/-- An SQLite constraint failure (sqlite3.IntegrityError). -/
inductive SqlErr
  | uniqueViolation (constraint : String)
  | notNullViolation (column : String)
deriving Repr, DecidableEq

/-- The message text sqlite3 puts into the raised IntegrityError. -/
def sqlErrMessage : SqlErr → String
  | SqlErr.uniqueViolation c => "UNIQUE constraint failed: " ++ c
  | SqlErr.notNullViolation c => "NOT NULL constraint failed: " ++ c

/-- Runs a statement for each list element, aborting at the first failing
statement, exactly like a Python for loop over cursor.execute calls inside a
try block. -/
def exceptFoldl {α σ : Type} (step : σ → α → Except SqlErr σ) : σ → List α → Except SqlErr σ
  | s, [] => Except.ok s
  | s, x :: rest =>
    match step s x with
    | Except.ok s2 => exceptFoldl step s2 rest
    | Except.error e => Except.error e

/-- Python enumerate(xs) starting at index i. -/
def pyEnumerate {α : Type} (i : Nat) : List α → List (Nat × α)
  | [] => []
  | x :: rest => (i, x) :: pyEnumerate (i + 1) rest

/-- Plain INSERT INTO blocks: fails on a duplicate height (PRIMARY KEY), a
duplicate hash (UNIQUE), or a NULL merkle_root (NOT NULL, no default). -/
def blocksInsert (s : ChainState) (r : BlockRow) : Except SqlErr ChainState :=
  if r.merkle_root.isNone then Except.error (SqlErr.notNullViolation "blocks.merkle_root")
  else if s.blocks.any (fun q => decide (q.height = r.height)) then
    Except.error (SqlErr.uniqueViolation "blocks.height")
  else if s.blocks.any (fun q => decide (q.hash = r.hash)) then
    Except.error (SqlErr.uniqueViolation "blocks.hash")
  else Except.ok { s with blocks := s.blocks ++ [r] }

/-- INSERT OR REPLACE INTO blocks: a NULL in a NOT NULL column with no
default still aborts (SQLite REPLACE semantics); rows conflicting on the
height PRIMARY KEY or the hash UNIQUE constraint are replaced. -/
def blocksInsertOrReplace (s : ChainState) (r : BlockRow) : Except SqlErr ChainState :=
  if r.merkle_root.isNone then Except.error (SqlErr.notNullViolation "blocks.merkle_root")
  else Except.ok { s with blocks :=
    (s.blocks.filter fun q => !(decide (q.height = r.height) || decide (q.hash = r.hash))) ++ [r] }

/-- Plain INSERT INTO transactions: fails on a duplicate txid (PRIMARY KEY). -/
def transactionsInsert (s : ChainState) (r : TxRow) : Except SqlErr ChainState :=
  if s.transactions.any (fun q => decide (q.txid = r.txid)) then
    Except.error (SqlErr.uniqueViolation "transactions.txid")
  else Except.ok { s with transactions := s.transactions ++ [r] }

/-- Plain INSERT INTO utxos: fails on a NULL created_at (NOT NULL, no
default) or a duplicate (txid, output_index) PRIMARY KEY. -/
def utxosInsert (s : ChainState) (r : UtxoRow) : Except SqlErr ChainState :=
  if r.created_at.isNone then Except.error (SqlErr.notNullViolation "utxos.created_at")
  else if s.utxos.any (fun u => decide (u.txid = r.txid) && decide (u.output_index = r.output_index)) then
    Except.error (SqlErr.uniqueViolation "utxos.txid, utxos.output_index")
  else Except.ok { s with utxos := s.utxos ++ [r] }

/-- INSERT OR REPLACE INTO utxos, same NOT NULL handling as for blocks. -/
def utxosInsertOrReplace (s : ChainState) (r : UtxoRow) : Except SqlErr ChainState :=
  if r.created_at.isNone then Except.error (SqlErr.notNullViolation "utxos.created_at")
  else Except.ok { s with utxos :=
    (s.utxos.filter fun u => !(decide (u.txid = r.txid) && decide (u.output_index = r.output_index))) ++ [r] }

/-- UPDATE utxos SET spent_txid = ?, spent_at = ? WHERE txid = ? AND
output_index = ?  (used by add_block and apply_transaction). -/
def utxosMarkSpentFull (s : ChainState) (spentTxid : String) (spentAt : ℚ)
    (refTxid : String) (refIdx : Int) : ChainState :=
  { s with utxos := s.utxos.map fun u =>
      if decide (u.txid = refTxid) && decide (u.output_index = refIdx) then
        { u with spent_txid := some spentTxid, spent_at := some spentAt }
      else u }

/-- UPDATE utxos SET spent_txid = ? WHERE txid = ? AND output_index = ?
(used by _submit_external_block, which does not touch spent_at). -/
def utxosMarkSpentTxidOnly (s : ChainState) (spentTxid : String)
    (refTxid : String) (refIdx : Int) : ChainState :=
  { s with utxos := s.utxos.map fun u =>
      if decide (u.txid = refTxid) && decide (u.output_index = refIdx) then
        { u with spent_txid := some spentTxid }
      else u }

/-- MainnetBlockchain.get_height: SELECT COUNT(ASTERISK) FROM blocks. -/
def get_height (s : ChainState) : Nat := s.blocks.length

/-- The row returned by SELECT ... ORDER BY height DESC LIMIT 1: the row of
maximal height (heights are a PRIMARY KEY, so unique in reachable states). -/
def bestRow (l : List BlockRow) : Option BlockRow :=
  l.foldl (fun acc r =>
    match acc with
    | none => some r
    | some q => if q.height < r.height then some r else some q) none

/-- The 64-zero placeholder hash. -/
def zeros64 : String := String.mk (List.replicate 64 '0')

/-- MainnetBlockchain.get_best_block_hash. -/
def get_best_block_hash (s : ChainState) : String :=
  ((bestRow s.blocks).map BlockRow.hash).getD zeros64

/-- The blocks-table row written for a Block by add_block. -/
def blockRowOf (b : Block) : BlockRow :=
  { height := b.height, prev_hash := b.prev_hash, merkle_root := some b.merkle_root,
    timestamp := b.timestamp, difficulty := b.difficulty, nonce := b.nonce, hash := b.hash }

/-- The transactions-table row written for a Transaction by add_block. -/
def txRowOf (height : Int) (tx : Transaction) : TxRow :=
  { txid := tx.txid, block_height := height, inputs := tx.inputs, outputs := tx.outputs,
    timestamp := tx.timestamp, fee := tx.fee, ring_size := tx.ring_size,
    bulletproof := tx.bulletproof, stealth := tx.stealth }

/-- The utxos-table row created by add_block for output number i of tx. -/
def newUtxoRow (tx : Transaction) (i : Nat) (o : Output) : UtxoRow :=
  { txid := tx.txid, output_index := (i : Int), address := o.address, amount := o.amount,
    spent_txid := none, spent_at := none, created_at := some tx.timestamp }

/-- The per-transaction statements of MainnetBlockchain.add_block: insert the
transaction row, blindly mark every referenced input UTXO as spent (no check
whether it exists or is already spent), then insert one UTXO row per output. -/
def addBlockTx (height : Int) (s : ChainState) (tx : Transaction) : Except SqlErr ChainState :=
  match transactionsInsert s (txRowOf height tx) with
  | Except.error e => Except.error e
  | Except.ok s1 =>
    let s2 := tx.inputs.foldl
      (fun s inp => utxosMarkSpentFull s tx.txid tx.timestamp inp.txid inp.output_index) s1
    exceptFoldl (fun s io => utxosInsert s (newUtxoRow tx io.1 io.2)) s2 (pyEnumerate 0 tx.outputs)

/-- All statements executed by add_block before its commit. -/
def addBlockStmts (s : ChainState) (b : Block) : Except SqlErr ChainState :=
  match blocksInsert s (blockRowOf b) with
  | Except.error e => Except.error e
  | Except.ok s1 => exceptFoldl (addBlockTx b.height) s1 b.transactions

/-- MainnetBlockchain.add_block: runs all statements, commits on success and
returns True; on any exception rolls the connection back, leaving the state
exactly as before, and returns False. -/
def add_block (s : ChainState) (b : Block) : Bool × ChainState :=
  match addBlockStmts s b with
  | Except.ok s2 => (true, s2)
  | Except.error _ => (false, s)

/-- The mutation add_block performs when every statement succeeds, written as
a pure fold in the same statement order. -/
def addBlockTxEffects (height : Int) (s : ChainState) (tx : Transaction) : ChainState :=
  let s1 := { s with transactions := s.transactions ++ [txRowOf height tx] }
  let s2 := tx.inputs.foldl
    (fun s inp => utxosMarkSpentFull s tx.txid tx.timestamp inp.txid inp.output_index) s1
  (pyEnumerate 0 tx.outputs).foldl
    (fun s io => { s with utxos := s.utxos ++ [newUtxoRow tx io.1 io.2] }) s2

/-- The full successful effect of add_block. -/
def apply_block_effects (s : ChainState) (b : Block) : ChainState :=
  b.transactions.foldl (addBlockTxEffects b.height)
    { s with blocks := s.blocks ++ [blockRowOf b] }

/-- The statements of MainnetBlockchain.apply_transaction. -/
def applyTransactionStmts (s : ChainState) (tx : Transaction) : Except SqlErr ChainState :=
  let s1 := tx.inputs.foldl
    (fun s inp => utxosMarkSpentFull s tx.txid tx.timestamp inp.txid inp.output_index) s
  exceptFoldl (fun s io => utxosInsert s (newUtxoRow tx io.1 io.2)) s1 (pyEnumerate 0 tx.outputs)

/-- MainnetBlockchain.apply_transaction: commit on success, rollback and
re-raise (returning the error) on failure. -/
def apply_transaction (s : ChainState) (tx : Transaction) : Option SqlErr × ChainState :=
  match applyTransactionStmts s tx with
  | Except.ok s2 => (none, s2)
  | Except.error e => (some e, s)

/-- The pure effect of a successful apply_transaction. -/
def apply_transaction_effects (s : ChainState) (tx : Transaction) : ChainState :=
  let s1 := tx.inputs.foldl
    (fun s inp => utxosMarkSpentFull s tx.txid tx.timestamp inp.txid inp.output_index) s
  (pyEnumerate 0 tx.outputs).foldl
    (fun s io => { s with utxos := s.utxos ++ [newUtxoRow tx io.1 io.2] }) s1

/-- The transaction dictionary a peer sends inside submitblock block data. -/
structure TxData where
  txid : String
  inputs : List InputRef
  outputs : List Output
deriving Repr, DecidableEq

/-- The block dictionary a peer sends to the submitblock RPC. -/
structure BlockData where
  height : Int
  hash : String
  previous_hash : String
  timestamp : ℚ
  difficulty : Int
  nonce : Int
  transactions : List TxData
deriving Repr, DecidableEq

/-- The result dictionary returned by _submit_external_block. -/
structure SubmitResult where
  success : Bool
  error : Option String
deriving Repr, DecidableEq

/-- The per-transaction statements of _submit_external_block: INSERT OR
REPLACE each output as a UTXO, with the created_at column omitted (NULL),
then mark each input spent (spent_txid only). -/
def submitTx (s : ChainState) (tx : TxData) : Except SqlErr ChainState :=
  match exceptFoldl
      (fun s io => utxosInsertOrReplace s
        { txid := tx.txid, output_index := (io.1 : Int), address := io.2.address,
          amount := io.2.amount, spent_txid := none, spent_at := none, created_at := none })
      s (pyEnumerate 0 tx.outputs) with
  | Except.error e => Except.error e
  | Except.ok s1 =>
    Except.ok (tx.inputs.foldl
      (fun s inp => utxosMarkSpentTxidOnly s tx.txid inp.txid inp.output_index) s1)

/-- The statements of _submit_external_block after its height check: INSERT
OR REPLACE the block row with the merkle_root column omitted (NULL), then
process each transaction. -/
def submitStmts (s : ChainState) (bd : BlockData) : Except SqlErr ChainState :=
  match blocksInsertOrReplace s
      { height := bd.height, prev_hash := bd.previous_hash, merkle_root := none,
        timestamp := bd.timestamp, difficulty := bd.difficulty, nonce := bd.nonce,
        hash := bd.hash } with
  | Except.error e => Except.error e
  | Except.ok s1 => exceptFoldl submitTx s1 bd.transactions

/-- MainnetRPCServer._submit_external_block: rejects heights at or below the
current block count, then runs the statements; any exception is caught and
reported as a failure dictionary, with the uncommitted connection abandoned
(so the database keeps its prior state). -/
def submit_external_block (s : ChainState) (bd : BlockData) : SubmitResult × ChainState :=
  if bd.height ≤ (get_height s : Int) then
    ({ success := false, error := some "Block already exists" }, s)
  else
    match submitStmts s bd with
    | Except.ok s2 => ({ success := true, error := none }, s2)
    | Except.error e => ({ success := false, error := some (sqlErrMessage e) }, s)

/-- Mainnet parameters set in MainnetBlockchain.init. -/
def initial_difficulty : Int := 4000

/-- Target seconds between blocks (block_time_target). -/
def block_time_target : ℚ := 600

/-- Initial block reward in PTC (block_reward). -/
def block_reward : ℚ := 50

/-- Blocks between reward halvings (halving_interval). -/
def halving_interval : Nat := 210000

/-- MainnetBlockchain.get_current_block_reward: block_reward divided by
2 to the power of the number of completed halving intervals; the float
division by a power of two is exact, so the rational model is faithful. -/
def get_current_block_reward (s : ChainState) : ℚ :=
  block_reward / 2 ^ (get_height s / halving_interval)

/-- MainnetBlockchain.get_address_balance: the sum of the unspent UTXO
amounts of the address; SUM over an empty set is NULL, which the source
maps to 0.0. -/
def get_address_balance (s : ChainState) (address : String) : ℚ :=
  ((s.utxos.filter fun u => decide (u.address = address) && u.spent_txid.isNone).map
    UtxoRow.amount).sum

/-- Descending insertion by amount, modelling ORDER BY amount DESC (for
equal amounts SQLite leaves the order unspecified; this model keeps the
stored order, and no verified property depends on tie order). -/
def insertByAmountDesc (u : UtxoRow) : List UtxoRow → List UtxoRow
  | [] => [u]
  | v :: rest => if v.amount < u.amount then u :: v :: rest else v :: insertByAmountDesc u rest

/-- Sorts utxo rows by amount, largest first. -/
def sortByAmountDesc (l : List UtxoRow) : List UtxoRow := l.foldr insertByAmountDesc []

/-- The accumulation loop of get_spendable_utxos: append rows in query order,
keeping a running total, and break as soon as the total reaches the target. -/
def selectUtxoLoop (amount : ℚ) (acc : List InputRef) (total : ℚ) :
    List UtxoRow → List InputRef × ℚ
  | [] => (acc, total)
  | u :: rest =>
    let acc2 := acc ++ [{ txid := u.txid, output_index := u.output_index,
                          address := u.address, amount := u.amount }]
    let total2 := total + u.amount
    if amount ≤ total2 then (acc2, total2) else selectUtxoLoop amount acc2 total2 rest

/-- MainnetBlockchain.get_spendable_utxos: walk the unspent UTXOs of the
address in descending amount order until the target is covered; return the
empty list when the accumulated total falls short. -/
def get_spendable_utxos (s : ChainState) (address : String) (amount : ℚ) : List InputRef :=
  let rows := sortByAmountDesc
    (s.utxos.filter fun u => decide (u.address = address) && u.spent_txid.isNone)
  let sel := selectUtxoLoop amount [] 0 rows
  if amount ≤ sel.2 then sel.1 else []

/-- MainnetBlockchain.create_transaction.  The generated txid and the wall
clock time are passed in as arguments (the source draws them from secrets
and time).  Returns none where the source returns None. -/
def create_transaction (s : ChainState) (from_address to_address : String) (amount : ℚ)
    (txid : String) (now : ℚ) : Option Transaction :=
  if get_address_balance s from_address < amount + 1/1000 then none
  else
    let spendable_utxos := get_spendable_utxos s from_address (amount + 1/1000)
    if spendable_utxos = [] then none
    else
      let input_total := (spendable_utxos.map InputRef.amount).sum
      let tx : Transaction :=
        { txid := txid, inputs := spendable_utxos,
          outputs := [{ address := to_address, amount := amount },
                      { address := from_address, amount := input_total - amount - 1/1000 }],
          timestamp := now, fee := 1/1000, ring_size := 16,
          bulletproof := true, stealth := true }
      if input_total - amount - 1/1000 < 1/1000 then
        some { tx with outputs := tx.outputs.take 1 }
      else some tx

/-- Python int() applied to a rational: truncation toward zero. -/
def pyInt (q : ℚ) : Int := if 0 ≤ q then ⌊q⌋ else -⌊-q⌋

/-- MainnetBlockchain.calculate_next_difficulty, applied to the result of
SELECT timestamp, difficulty FROM blocks ORDER BY height DESC LIMIT 2016.
Returns none exactly when the source raises (ZeroDivisionError on equal
first and last timestamps). -/
def calculate_next_difficulty (blocksDesc : List (ℚ × Int)) : Option Int :=
  if blocksDesc.length < 2016 then some initial_difficulty
  else
    match blocksDesc.head?, blocksDesc.getLast? with
    | some (tNew, dCur), some (tOld, _) =>
      let time_taken := tNew - tOld
      if time_taken = 0 then none
      else
        let adjustment_factor := (2016 * block_time_target) / time_taken
        let adjustment_factor := max (1/4) (min 4 adjustment_factor)
        some (pyInt ((dCur : ℚ) * adjustment_factor))
    | _, _ => none

/-- Descending insertion by height, modelling ORDER BY height DESC. -/
def insertByHeightDesc (r : BlockRow) : List BlockRow → List BlockRow
  | [] => [r]
  | q :: rest => if q.height < r.height then r :: q :: rest else q :: insertByHeightDesc r rest

/-- Sorts block rows by height, largest first. -/
def sortByHeightDesc (l : List BlockRow) : List BlockRow := l.foldr insertByHeightDesc []

/-- The rows fetched by the retarget query of calculate_next_difficulty. -/
def retargetRows (s : ChainState) : List (ℚ × Int) :=
  ((sortByHeightDesc s.blocks).take 2016).map fun r => (r.timestamp, r.difficulty)

/-- calculate_next_difficulty run against the stored chain. -/
def calculate_next_difficulty_of_state (s : ChainState) : Option Int :=
  calculate_next_difficulty (retargetRows s)

/-- MainnetBlockchain.get_difficulty: retarget on every 2016 block boundary,
otherwise the difficulty stored in the latest block, or the initial
difficulty for an empty chain. -/
def get_difficulty (s : ChainState) : Option Int :=
  let height := get_height s
  if height % 2016 = 0 ∧ 0 < height then calculate_next_difficulty_of_state s
  else some (((bestRow s.blocks).map BlockRow.difficulty).getD initial_difficulty)

/-- Required count of leading hexadecimal zero digits, from
RealCrypto.mine_block: max(2, difficulty // 1000) with Python floor
division. -/
def target_zeros (difficulty : Int) : Int := max 2 (Int.fdiv difficulty 1000)

/-- Count of leading zero characters of a hash. -/
def leading_zero_chars : List Char → Nat
  | [] => 0
  | c :: rest => if c = '0' then leading_zero_chars rest + 1 else 0

/-- The proof-of-work acceptance predicate RealCrypto.mine_block searches
for: the hash starts with target_zeros(difficulty) zero digits. -/
def hash_meets_target (hash : String) (difficulty : Int) : Bool :=
  decide (target_zeros difficulty ≤ (leading_zero_chars hash.data : Int))

/-- The coinbase transaction built by MainnetMiner.mine_loop; the generated
txid and the wall clock time are passed as arguments. -/
def coinbase_transaction (s : ChainState) (mining_address txid : String) (now : ℚ) :
    Transaction :=
  { txid := txid, inputs := [],
    outputs := [{ address := mining_address, amount := get_current_block_reward s }],
    timestamp := now, fee := 0, ring_size := 1, bulletproof := false, stealth := false }

/-- MainnetBlockchain.mine_new_block.  The sha256 merkle root and the
proof-of-work search result (nonce, hash) are abstracted as arguments; the
predicate the search satisfies is hash_meets_target.  Returns none when
get_difficulty propagates a retarget error. -/
def mine_new_block (s : ChainState) (transactions : List Transaction) (merkleRoot : String)
    (now : ℚ) (nonce : Int) (hash : String) : Option Block :=
  (get_difficulty s).map fun difficulty =>
    { height := (get_height s : Int), prev_hash := get_best_block_hash s,
      merkle_root := merkleRoot, timestamp := now, difficulty := difficulty,
      nonce := nonce, transactions := transactions, hash := hash }

/-- Retarget rule as worded by the specification (max(1, round(current times
the clamped factor))); stated for comparison against
calculate_next_difficulty.  The spec does not fix a tie-breaking rule for
round, and no comparison below evaluates it at a half-integer. -/
def specRetargetDifficulty (currentDifficulty : Int) (targetElapsed actualElapsed : ℚ) : Int :=
  let factor := max (1/4) (min 4 (targetElapsed / actualElapsed))
  max 1 (round ((currentDifficulty : ℚ) * factor))

/-- Outcome of one peer RPC fetch in PTCNetworkSync._sync_blocks_from_peer:
the call raised, returned a falsy payload, or returned block data. -/
inductive FetchOutcome
  | err
  | empty
  | rows (bd : BlockData)
deriving Repr, DecidableEq

/-- A peer as seen by _sync_with_peers: its reported height (the height
query masks its own errors by reporting 0) and its block fetch behaviour. -/
structure Peer where
  height : Int
  fetch : Int → FetchOutcome

/-- The heights requested by PTCNetworkSync._sync_blocks_from_peer:
range(start_height + 1, min(end_height + 1, start_height + 10)). -/
def batch_heights (start_height end_height : Int) : List Int :=
  (List.range (min (end_height + 1) (start_height + 10) - (start_height + 1)).toNat).map
    fun (i : Nat) => start_height + 1 + (i : Int)

/-- The fetch-and-submit loop of PTCNetworkSync._sync_blocks_from_peer over
a list of heights.  A raising fetch breaks the loop; a falsy payload is
skipped; otherwise the block is submitted locally through the submitblock
entry point, whose result (and any exception, swallowed inside
_submit_block_locally) is ignored.  Returns the final state and the blocks
that were submitted, in submission order. -/
def sync_blocks_loop (fetch : Int → FetchOutcome) :
    ChainState → List Int → ChainState × List BlockData
  | s, [] => (s, [])
  | s, h :: rest =>
    match fetch h with
    | FetchOutcome.err => (s, [])
    | FetchOutcome.empty => sync_blocks_loop fetch s rest
    | FetchOutcome.rows bd =>
      let s1 := (submit_external_block s bd).2
      let r := sync_blocks_loop fetch s1 rest
      (r.1, bd :: r.2)

/-- PTCNetworkSync._sync_blocks_from_peer. -/
def sync_blocks_from_peer (fetch : Int → FetchOutcome) (s : ChainState)
    (start_height end_height : Int) : ChainState × List BlockData :=
  sync_blocks_loop fetch s (batch_heights start_height end_height)

/-- PTCNetworkSync._sync_with_peers: one sync pass.  The local height is read
once; peers are scanned in order and the pass syncs from the first peer whose
height exceeds the local height, then breaks. -/
def sync_with_peers (s : ChainState) : List Peer → ChainState × List BlockData
  | [] => (s, [])
  | p :: rest =>
    if (get_height s : Int) < p.height then
      sync_blocks_from_peer p.fetch s (get_height s) p.height
    else sync_with_peers s rest

/-- The submit loop of PTCGlobalNetwork._sync_blocks_from_peer over the
blocks returned by one unbounded getblocks request: submit each block in
order and break at the first result whose success flag is false.  Returns
the final state and the blocks that were submitted. -/
def global_sync_submit : ChainState → List BlockData → ChainState × List BlockData
  | s, [] => (s, [])
  | s, bd :: rest =>
    let r := submit_external_block s bd
    if r.1.success then
      let r2 := global_sync_submit r.2 rest
      (r2.1, bd :: r2.2)
    else (r.2, [bd])

/-- A concrete genesis transaction: no inputs, one 50 PTC output to
genesis_fund (concrete txid and time standing in for the generated values). -/
def genesisTx : Transaction :=
  { txid := "gtx0", inputs := [],
    outputs := [{ address := "genesis_fund", amount := 50 }],
    timestamp := 1, fee := 0, ring_size := 1, bulletproof := false, stealth := false }

/-- A concrete genesis block (mirrors create_genesis_block: height 0,
all-zero prev_hash, one zero-input transaction). -/
def genesisBlock : Block :=
  { height := 0, prev_hash := zeros64, merkle_root := "gtx0", timestamp := 1,
    difficulty := 4000, nonce := 7, transactions := [genesisTx],
    hash := "0000a7c3f2b1d6e5" }

/-- A store holding exactly the accepted genesis block. -/
def s1 : ChainState :=
  { blocks := [blockRowOf genesisBlock],
    transactions := [txRowOf 0 genesisTx],
    utxos := [{ txid := "gtx0", output_index := 0, address := "genesis_fund", amount := 50,
                spent_txid := none, spent_at := none, created_at := some 1 }] }

/-- The genesis block as peer-submitted block data. -/
def genesisBlockData : BlockData :=
  { height := 0, hash := genesisBlock.hash, previous_hash := zeros64, timestamp := 1,
    difficulty := 4000, nonce := 7, transactions := [] }

/-- A block at the correct next height whose hash has no leading zeros, so
it fails the proof-of-work predicate for its stated difficulty. -/
def powBadBlock : Block :=
  { height := 1, prev_hash := genesisBlock.hash, merkle_root := "m1", timestamp := 2,
    difficulty := 4000, nonce := 0, transactions := [],
    hash := "ffffffffffffffffffffffffffffffffffffffffffffffffffffffffffffffff" }

/-- A block at height 3 submitted to a store of height 1, skipping heights
1 and 2. -/
def skipBlock : Block :=
  { height := 3, prev_hash := "0000deadbeef", merkle_root := "m3", timestamp := 3,
    difficulty := 4000, nonce := 0, transactions := [], hash := "0000c4f7a2" }

/-- A store holding genesis plus one unspent 50 PTC UTXO owned by alice. -/
def s2 : ChainState :=
  { blocks := [blockRowOf genesisBlock],
    transactions := [txRowOf 0 genesisTx],
    utxos := [{ txid := "t0", output_index := 0, address := "alice", amount := 50,
                spent_txid := none, spent_at := none, created_at := some 1 }] }

/-- A block containing two transactions that both consume the same UTXO
(t0, 0): a double spend inside one proposed block. -/
def doubleSpendBlock : Block :=
  { height := 1, prev_hash := genesisBlock.hash, merkle_root := "mds", timestamp := 5,
    difficulty := 4000, nonce := 0,
    transactions :=
      [{ txid := "ta", inputs := [{ txid := "t0", output_index := 0, address := "alice", amount := 50 }],
         outputs := [{ address := "bob", amount := 1 }], timestamp := 5, fee := 1/1000,
         ring_size := 16, bulletproof := true, stealth := true },
       { txid := "tb", inputs := [{ txid := "t0", output_index := 0, address := "alice", amount := 50 }],
         outputs := [{ address := "carol", amount := 1 }], timestamp := 5, fee := 1/1000,
         ring_size := 16, bulletproof := true, stealth := true }],
    hash := "0000dsblock" }

/-- The retarget query result for an interval that took four times the
target elapsed time at difficulty 1: 2016 rows, newest timestamp
4838400 = 4 * 2016 * 600, oldest timestamp 0. -/
def retargetCexRows : List (ℚ × Int) :=
  (((4838400 : ℚ), (1 : Int)) :: List.replicate 2014 ((0 : ℚ), (1 : Int))) ++
    [((0 : ℚ), (1 : Int))]

/-- A store with no UTXOs at all. -/
def sPoor : ChainState := { blocks := [], transactions := [], utxos := [] }

/-- A store where alice owns a single unspent 50 PTC UTXO. -/
def sRich : ChainState :=
  { blocks := [], transactions := [],
    utxos := [{ txid := "t0", output_index := 0, address := "alice", amount := 50,
                spent_txid := none, spent_at := none, created_at := some 1 }] }

/-- The transaction create_transaction builds for sending 10 PTC from alice
to bob out of sRich: one 50 PTC input, a 10 PTC output to bob and a
39.999 PTC change output back to alice. -/
def c8Tx : Transaction :=
  { txid := "t1",
    inputs := [{ txid := "t0", output_index := 0, address := "alice", amount := 50 }],
    outputs := [{ address := "bob", amount := 10 },
                { address := "alice", amount := 39999/1000 }],
    timestamp := 99, fee := 1/1000, ring_size := 16, bulletproof := true, stealth := true }

/-- Block data for heights 2 and 3 as served by a peer. -/
def peerBd2 : BlockData :=
  { height := 2, hash := "0000peer2", previous_hash := "0000peer1", timestamp := 20,
    difficulty := 4000, nonce := 0, transactions := [] }

/-- Second peer block, at height 3. -/
def peerBd3 : BlockData :=
  { height := 3, hash := "0000peer3", previous_hash := "0000peer2", timestamp := 30,
    difficulty := 4000, nonce := 0, transactions := [] }

/-- A fetch function serving peerBd2 at height 2 and peerBd3 at height 3. -/
def cexFetch : Int → FetchOutcome := fun h =>
  if h = 2 then FetchOutcome.rows peerBd2
  else if h = 3 then FetchOutcome.rows peerBd3
  else FetchOutcome.empty

/-- A peer at height 3 serving cexFetch. -/
def peerA : Peer := { height := 3, fetch := cexFetch }

/-- Peer block data at the next height whose single transaction has no
outputs (and no inputs). -/
def noOutputBlockData : BlockData :=
  { height := 2, hash := "0000noout", previous_hash := genesisBlock.hash, timestamp := 8,
    difficulty := 4000, nonce := 0,
    transactions := [{ txid := "tn", inputs := [], outputs := [] }] }

/-- A synthetic store whose block count is n (only the count feeds the
reward schedule). -/
def chainOfHeight (n : Nat) : ChainState :=
  { blocks := (List.range n).map fun (i : Nat) =>
      { height := (i : Int), prev_hash := "p", merkle_root := some "m", timestamp := 0,
        difficulty := 4000, nonce := 0, hash := "h" },
    transactions := [], utxos := [] }

/-- The block mine_new_block assembles on s1 with no transactions, merkle
root m, time 5, nonce 6 and hash 0000w. -/
def c6WitnessBlock : Block :=
  { height := 1, prev_hash := genesisBlock.hash, merkle_root := "m", timestamp := 5,
    difficulty := 4000, nonce := 6, transactions := [], hash := "0000w" }

/-! Helper lemmas. -/

theorem exceptFoldl_ok {α σ : Type} (stepM : σ → α → Except SqlErr σ) (stepP : σ → α → σ)
    (hstep : ∀ s x t, stepM s x = Except.ok t → t = stepP s x) :
    ∀ (l : List α) (s t : σ), exceptFoldl stepM s l = Except.ok t → t = l.foldl stepP s := by
  intro l
  induction l with
  | nil =>
    intro s t h
    simp only [exceptFoldl] at h
    cases h
    rfl
  | cons x xs ih =>
    intro s t h
    simp only [exceptFoldl] at h
    cases hx : stepM s x with
    | error e => rw [hx] at h; cases h
    | ok s1 =>
      rw [hx] at h
      rw [List.foldl_cons, ← hstep s x s1 hx]
      exact ih s1 t h

theorem blocksInsert_ok (s : ChainState) (r : BlockRow) (t : ChainState)
    (h : blocksInsert s r = Except.ok t) : t = { s with blocks := s.blocks ++ [r] } := by
  unfold blocksInsert at h
  split at h
  · cases h
  · split at h
    · cases h
    · split at h
      · cases h
      · cases h; rfl

theorem transactionsInsert_ok (s : ChainState) (r : TxRow) (t : ChainState)
    (h : transactionsInsert s r = Except.ok t) :
    t = { s with transactions := s.transactions ++ [r] } := by
  unfold transactionsInsert at h
  split at h
  · cases h
  · cases h; rfl

theorem utxosInsert_ok (s : ChainState) (r : UtxoRow) (t : ChainState)
    (h : utxosInsert s r = Except.ok t) : t = { s with utxos := s.utxos ++ [r] } := by
  unfold utxosInsert at h
  split at h
  · cases h
  · split at h
    · cases h
    · cases h; rfl

theorem addBlockTx_ok (height : Int) (s : ChainState) (tx : Transaction) (t : ChainState)
    (h : addBlockTx height s tx = Except.ok t) : t = addBlockTxEffects height s tx := by
  unfold addBlockTx at h
  cases hins : transactionsInsert s (txRowOf height tx) with
  | error e => rw [hins] at h; cases h
  | ok s1 =>
    rw [hins] at h
    rw [transactionsInsert_ok s _ s1 hins] at h
    exact exceptFoldl_ok _ _ (fun s x t hx => utxosInsert_ok s _ t hx) _ _ _ h

theorem pyInt_intCast (d : Int) : pyInt (d : ℚ) = d := by
  unfold pyInt
  by_cases h : (0 : ℚ) ≤ (d : ℚ)
  · rw [if_pos h, Int.floor_intCast]
  · rw [if_neg h]
    rw [show (-(d : ℚ)) = ((-d : Int) : ℚ) by push_cast; ring, Int.floor_intCast]
    ring

theorem retargetCexRows_len : retargetCexRows.length = 2016 := by
  rw [retargetCexRows, List.length_append, List.length_cons, List.length_replicate]
  norm_num

theorem retarget_eval (rows : List (ℚ × Int)) (tNew tOld : ℚ) (dCur dLast : Int)
    (hlen : rows.length = 2016)
    (hhead : rows.head? = some (tNew, dCur))
    (hlast : rows.getLast? = some (tOld, dLast))
    (hne : tNew - tOld ≠ 0) :
    calculate_next_difficulty rows =
      some (pyInt ((dCur : ℚ) *
        max (1/4) (min 4 ((2016 * block_time_target) / (tNew - tOld))))) := by
  unfold calculate_next_difficulty
  rw [hlen, hhead, hlast]
  norm_num [hne]

theorem sync_with_peers_find (s : ChainState) (peers : List Peer) :
    sync_with_peers s peers =
      match peers.find? (fun p => decide ((get_height s : Int) < p.height)) with
      | none => (s, [])
      | some p => sync_blocks_from_peer p.fetch s (get_height s) p.height := by
  induction peers with
  | nil => rfl
  | cons p rest ih =>
    by_cases h : (get_height s : Int) < p.height
    · rw [sync_with_peers, if_pos h, List.find?_cons_of_pos _ (by simpa using h)]
    · rw [sync_with_peers, if_neg h, List.find?_cons_of_neg _ (by simpa using h), ih]

theorem sync_blocks_loop_no_err (fetch : Int → FetchOutcome) :
    ∀ (hs : List Int) (s : ChainState), (∀ h ∈ hs, fetch h ≠ FetchOutcome.err) →
      (sync_blocks_loop fetch s hs).2 =
        hs.filterMap (fun h =>
          match fetch h with
          | FetchOutcome.rows bd => some bd
          | _ => none) := by
  intro hs
  induction hs with
  | nil => intro s _; rfl
  | cons h rest ih =>
    intro s hne
    have hh : fetch h ≠ FetchOutcome.err := hne h (List.mem_cons_self h rest)
    have hrest : ∀ x ∈ rest, fetch x ≠ FetchOutcome.err :=
      fun x hx => hne x (List.mem_cons_of_mem h hx)
    rw [sync_blocks_loop, List.filterMap_cons]
    cases hf : fetch h with
    | err => exact absurd hf hh
    | empty => exact ih s hrest
    | rows bd => simp only [ih _ hrest]

/-! Claim theorems. -/

/-- C1: the claim says the block-application entry point recomputes the hash
and never accepts a block whose hash lacks the required leading zeros.  In
the code, add_block (the ApplyBlock used by the miner and by sendtoaddress,
and the only path that ever accepts a block) performs no hash or
proof-of-work check at all: a block whose hash has zero leading zero digits,
far below the four required at difficulty 4000, is accepted into the store. -/
theorem pow_never_reverified :
    hash_meets_target powBadBlock.hash powBadBlock.difficulty = false ∧
    (add_block s1 powBadBlock).1 = true ∧
    powBadBlock.hash ∈ (add_block s1 powBadBlock).2.blocks.map BlockRow.hash := by decide

/-- C2: the claim says a block whose height is not the current height is
rejected, so accepted heights stay contiguous.  In the code, add_block does
no height-contiguity check: on a store of height 1 a block at height 3
(current height plus 2) is accepted, leaving the store with the
non-contiguous heights 0 and 3. -/
theorem height_skip_accepted :
    get_height s1 = 1 ∧ skipBlock.height = 3 ∧
    (add_block s1 skipBlock).1 = true ∧
    (add_block s1 skipBlock).2.blocks.map BlockRow.height = [0, 3] := by decide

/-- C3: the claim says a second transaction spending an already-consumed
UTXO in the same block is rejected with DoubleSpend.  In the code, add_block
never checks that a referenced UTXO is unspent: a block whose two
transactions ta and tb both spend UTXO (t0, 0) is accepted, both transaction
rows are stored, and the second blind UPDATE overwrites the spent marker of
the first, leaving (t0, 0) marked as spent by tb. -/
theorem double_spend_accepted :
    (add_block s2 doubleSpendBlock).1 = true ∧
    ((add_block s2 doubleSpendBlock).2.utxos.filter fun u => decide (u.txid = "t0")).map
      UtxoRow.spent_txid = [some "tb"] ∧
    "ta" ∈ (add_block s2 doubleSpendBlock).2.transactions.map TxRow.txid ∧
    "tb" ∈ (add_block s2 doubleSpendBlock).2.transactions.map TxRow.txid := by decide

/-- C4: add_block is atomic: it either fails and returns the state exactly
as it was (the rollback of the single uncommitted connection), or succeeds
and commits the block row, every transaction row and every UTXO mutation in
one unit; apply_transaction has the same commit/rollback shape. -/
theorem add_block_atomic (s : ChainState) (b : Block) (tx : Transaction) :
    (add_block s b = (false, s) ∨ add_block s b = (true, apply_block_effects s b)) ∧
    ((apply_transaction s tx).2 = s ∨
      apply_transaction s tx = (none, apply_transaction_effects s tx)) := by
  constructor
  · unfold add_block
    cases h : addBlockStmts s b with
    | error e => left; rfl
    | ok t =>
      right
      have ht : t = apply_block_effects s b := by
        unfold addBlockStmts at h
        cases hb : blocksInsert s (blockRowOf b) with
        | error e => rw [hb] at h; cases h
        | ok s3 =>
          rw [hb] at h
          rw [blocksInsert_ok s _ s3 hb] at h
          exact exceptFoldl_ok _ _ (addBlockTx_ok b.height) _ _ _ h
      rw [ht]
  · unfold apply_transaction
    cases h : applyTransactionStmts s tx with
    | error e => left; rfl
    | ok t =>
      right
      have ht : t = apply_transaction_effects s tx := by
        unfold applyTransactionStmts at h
        exact exceptFoldl_ok _ _ (fun s x t hx => utxosInsert_ok s _ t hx) _ _ _ h
      rw [ht]

/-- C5: counterexample to the claim that re-submitting an already-accepted
height reports success: re-applying the genesis block to a store that
already holds it returns False from add_block, and the submitblock RPC
returns success false with the message Block already exists; the store is
indeed left unchanged. -/
theorem resubmit_reports_failure :
    (add_block s1 genesisBlock).1 = false ∧
    (add_block s1 genesisBlock).2 = s1 ∧
    (submit_external_block s1 genesisBlockData).1.success = false := by decide

/-- C5 amended: re-submitting a block at an already-accepted height is a
no-op, but it reports failure, not success: add_block returns False (height
primary-key conflict) with the state unchanged, and the submitblock RPC
returns success false with error Block already exists; Height and BestHash
are unchanged. -/
theorem resubmit_noop_reports_failure (s : ChainState) (b : Block) (bd : BlockData)
    (h1 : s.blocks.any (fun q => decide (q.height = b.height)) = true)
    (h2 : bd.height ≤ (get_height s : Int)) :
    add_block s b = (false, s) ∧
    submit_external_block s bd =
      ({ success := false, error := some "Block already exists" }, s) ∧
    get_height (add_block s b).2 = get_height s ∧
    get_best_block_hash (add_block s b).2 = get_best_block_hash s := by
  have hab : add_block s b = (false, s) := by
    unfold add_block addBlockStmts blocksInsert
    simp [blockRowOf, h1]
  refine ⟨hab, ?_, by rw [hab], by rw [hab]⟩
  unfold submit_external_block
  rw [if_pos h2]

/-- C5 witness: the amended theorem evaluated at the genesis re-submission. -/
theorem resubmit_noop_reports_failure_witness :
    add_block s1 genesisBlock = (false, s1) ∧
    submit_external_block s1 genesisBlockData =
      ({ success := false, error := some "Block already exists" }, s1) := by
  have h := resubmit_noop_reports_failure s1 genesisBlock genesisBlockData
    (by decide) (by decide)
  exact ⟨h.1, h.2.1⟩

/-- C6: the mint reward at block count h is block_reward divided by 2 to the
power h div halving_interval; the coinbase transaction built by the mining
loop pays exactly this amount in its single output, and the block assembled
around it carries the current block count as its height; with base reward 50
and halving interval 210000, height 0 pays 50 and height 210000 pays 25. -/
theorem mint_reward_schedule :
    (∀ s : ChainState, get_current_block_reward s = 50 / 2 ^ (get_height s / 210000)) ∧
    (∀ (s : ChainState) (addr txid : String) (now : ℚ),
      (coinbase_transaction s addr txid now).inputs = [] ∧
      (coinbase_transaction s addr txid now).outputs =
        [{ address := addr, amount := get_current_block_reward s }]) ∧
    (∀ (s : ChainState) (txs : List Transaction) (mr : String) (now : ℚ) (nonce : Int)
        (hashv : String) (blk : Block),
      mine_new_block s txs mr now nonce hashv = some blk →
      blk.height = (get_height s : Int) ∧ blk.transactions = txs) ∧
    get_current_block_reward (chainOfHeight 0) = 50 ∧
    get_current_block_reward (chainOfHeight 210000) = 25 := by
  refine ⟨fun s => rfl, fun s addr txid now => ⟨rfl, rfl⟩, ?_, ?_, ?_⟩
  · intro s txs mr now nonce hashv blk h
    unfold mine_new_block at h
    cases hd : get_difficulty s with
    | none => rw [hd] at h; cases h
    | some d =>
      rw [hd] at h
      cases h
      exact ⟨rfl, rfl⟩
  · norm_num [get_current_block_reward, get_height, chainOfHeight, block_reward,
      halving_interval]
  · have hlen : get_height (chainOfHeight 210000) = 210000 := by
      simp only [get_height, chainOfHeight, List.length_map, List.length_range]
    rw [get_current_block_reward, hlen]
    norm_num [block_reward, halving_interval]

/-- C6 witness: the mined-block conjunct evaluated on the one-block store s1
with no transactions. -/
theorem mint_reward_schedule_witness :
    c6WitnessBlock.height = (get_height s1 : Int) ∧
    c6WitnessBlock.transactions = ([] : List Transaction) :=
  mint_reward_schedule.2.2.1 s1 [] "m" 5 6 "0000w" c6WitnessBlock (by decide)

/-- C7: counterexample to the retarget formula max(1, round(current times
factor)): on a 2016-row interval that took four times the target elapsed
time at difficulty 1, the code computes int(1 times 0.25) = 0, while the
claimed formula yields max(1, round(0.25)) = 1; the code has no lower bound
of 1 and truncates instead of rounding. -/
theorem retarget_formula_cex :
    calculate_next_difficulty retargetCexRows = some 0 ∧
    specRetargetDifficulty 1 1209600 4838400 = 1 := by
  constructor
  · have h := retarget_eval retargetCexRows 4838400 0 1 1 retargetCexRows_len rfl
      (List.getLast?_concat _) (by norm_num)
    rw [h]
    norm_num [block_time_target, pyInt]
  · norm_num [specRetargetDifficulty, round_eq]

/-- C7 amended: at a retarget boundary the code computes
int(currentDifficulty times the factor clamped to [0.25, 4.0]) with Python
int() truncation and no max(1, ...) floor; in particular the difficulty is
unchanged when the interval took exactly the target elapsed time, and after
an interval four times the target it becomes int(currentDifficulty / 4),
which is 0 for difficulty 1. -/
theorem retarget_truncates_without_floor (rows : List (ℚ × Int)) (tNew tOld : ℚ)
    (dCur dLast : Int)
    (hlen : rows.length = 2016)
    (hhead : rows.head? = some (tNew, dCur))
    (hlast : rows.getLast? = some (tOld, dLast))
    (hne : tNew - tOld ≠ 0) :
    calculate_next_difficulty rows =
      some (pyInt ((dCur : ℚ) *
        max (1/4) (min 4 ((2016 * block_time_target) / (tNew - tOld))))) ∧
    (tNew - tOld = 2016 * block_time_target →
      calculate_next_difficulty rows = some dCur) ∧
    (tNew - tOld = 4 * (2016 * block_time_target) →
      calculate_next_difficulty rows = some (pyInt ((dCur : ℚ) / 4))) := by
  have h := retarget_eval rows tNew tOld dCur dLast hlen hhead hlast hne
  refine ⟨h, ?_, ?_⟩
  · intro heq
    rw [h, heq]
    have hq : (2016 * block_time_target) / (2016 * block_time_target) = (1 : ℚ) := by
      norm_num [block_time_target]
    rw [hq, show max ((1:ℚ)/4) (min 4 1) = 1 by norm_num, mul_one, pyInt_intCast]
  · intro heq
    rw [h, heq]
    have hq : (2016 * block_time_target) / (4 * (2016 * block_time_target)) = (1 : ℚ)/4 := by
      norm_num [block_time_target]
    rw [hq, show max ((1:ℚ)/4) (min 4 (1/4)) = 1/4 by norm_num,
      show (dCur : ℚ) * (1/4) = (dCur : ℚ) / 4 by ring]

/-- C7 witness: the amended theorem evaluated on the concrete four-times
interval at difficulty 1, where truncation yields 0. -/
theorem retarget_truncates_without_floor_witness :
    calculate_next_difficulty retargetCexRows = some (pyInt ((1 : ℚ) / 4)) ∧
    pyInt ((1 : ℚ) / 4) = 0 := by
  constructor
  · exact (retarget_truncates_without_floor retargetCexRows 4838400 0 1 1
      retargetCexRows_len rfl (List.getLast?_concat _) (by norm_num)).2.2
      (by norm_num [block_time_target])
  · norm_num [pyInt]

/-- C8: create_transaction charges the fixed fee 0.001, returns none when
the balance of the sender is below amount plus fee, pays exactly amount to
the destination in its first output, and appends a change output of
selected-inputs minus amount minus fee back to the sender exactly when that
remainder is at least the 0.001 dust threshold; with the change output
present the outputs plus fee equal the inputs, and with it absent only the
sub-dust remainder is discarded. -/
theorem build_transaction_contract (s : ChainState) (src dst : String) (amount : ℚ)
    (txid : String) (now : ℚ) :
    (get_address_balance s src < amount + 1/1000 →
      create_transaction s src dst amount txid now = none) ∧
    (∀ tx, create_transaction s src dst amount txid now = some tx →
      tx.fee = 1/1000 ∧
      tx.inputs = get_spendable_utxos s src (amount + 1/1000) ∧
      tx.outputs.head? = some { address := dst, amount := amount } ∧
      ((1/1000 : ℚ) ≤ (tx.inputs.map InputRef.amount).sum - amount - 1/1000 →
        tx.outputs = [{ address := dst, amount := amount },
          { address := src,
            amount := (tx.inputs.map InputRef.amount).sum - amount - 1/1000 }] ∧
        (tx.outputs.map Output.amount).sum + tx.fee = (tx.inputs.map InputRef.amount).sum) ∧
      ((tx.inputs.map InputRef.amount).sum - amount - 1/1000 < 1/1000 →
        tx.outputs = [{ address := dst, amount := amount }] ∧
        (tx.outputs.map Output.amount).sum + tx.fee =
          (tx.inputs.map InputRef.amount).sum -
            ((tx.inputs.map InputRef.amount).sum - amount - 1/1000))) := by
  constructor
  · intro h
    unfold create_transaction
    rw [if_pos h]
  · intro tx h
    simp only [create_transaction] at h
    split at h
    · cases h
    · split at h
      · cases h
      · split at h
        next hd =>
          cases h
          refine ⟨rfl, rfl, rfl, ?_, ?_⟩
          · intro hge
            exact absurd hge (not_le.mpr hd)
          · intro _
            refine ⟨rfl, ?_⟩
            simp only [List.take_succ_cons, List.take_zero, List.map_cons, List.map_nil,
              List.sum_cons, List.sum_nil]
            ring
        next hd =>
          cases h
          refine ⟨rfl, rfl, rfl, ?_, ?_⟩
          · intro _
            refine ⟨rfl, ?_⟩
            simp only [List.map_cons, List.map_nil, List.sum_cons, List.sum_nil]
            ring
          · intro hlt
            exact absurd hlt hd

/-- C8 witness: on a store where alice owns a single unspent 50 PTC UTXO,
sending 10 PTC to bob builds the expected two-output transaction, and on an
empty store the build fails. -/
theorem build_transaction_contract_witness :
    create_transaction sPoor "alice" "bob" 10 "t1" 99 = none ∧
    create_transaction sRich "alice" "bob" 10 "t1" 99 = some c8Tx ∧
    c8Tx.fee = 1/1000 ∧
    c8Tx.outputs.head? = some { address := "bob", amount := 10 } := by
  have hsome : create_transaction sRich "alice" "bob" 10 "t1" 99 = some c8Tx := by
    with_unfolding_all rfl
  have hp := (build_transaction_contract sRich "alice" "bob" 10 "t1" 99).2 c8Tx hsome
  refine ⟨(build_transaction_contract sPoor "alice" "bob" 10 "t1" 99).1 ?_, hsome,
    hp.1, hp.2.2.1⟩
  norm_num [get_address_balance, sPoor]

/-- C9: counterexample to submission stopping at the first rejection: in a
PTCNetworkSync sync pass against a peer at height 3, the submitblock call
for the first fetched block is rejected (success false), yet the pass still
submits the second fetched block, because _submit_block_locally swallows the
result. -/
theorem sync_ignores_rejection :
    (submit_external_block s1 peerBd2).1.success = false ∧
    (sync_with_peers s1 [peerA]).2 = [peerBd2, peerBd3] := by decide

/-- C9 amended: a PTCNetworkSync sync pass pulls from at most one peer (the
first whose height exceeds the local height), requests at most 9 blocks at
heights localHeight+1 and following in strictly ascending order, and, when
no fetch raises, submits every fetched block regardless of rejections: a
submitblock rejection does not stop the batch.  Only the
PTCGlobalNetwork variant stops at the first rejection (and it fetches all
missing blocks in one unbounded request). -/
theorem sync_pass_contract (s : ChainState) (peers : List Peer)
    (fetch : Int → FetchOutcome) (hs : List Int) (start_height end_height : Int)
    (hnoerr : ∀ h ∈ hs, fetch h ≠ FetchOutcome.err) :
    (sync_with_peers s peers =
      match peers.find? (fun p => decide ((get_height s : Int) < p.height)) with
      | none => (s, [])
      | some p => sync_blocks_from_peer p.fetch s (get_height s) p.height) ∧
    (batch_heights start_height end_height).length ≤ 9 ∧
    List.Pairwise (· < ·) (batch_heights start_height end_height) ∧
    (sync_blocks_loop fetch s hs).2 =
      hs.filterMap (fun h =>
        match fetch h with
        | FetchOutcome.rows bd => some bd
        | _ => none) ∧
    (∀ (bd : BlockData) (rest : List BlockData),
      (submit_external_block s bd).1.success = false →
      global_sync_submit s (bd :: rest) = ((submit_external_block s bd).2, [bd])) := by
  refine ⟨sync_with_peers_find s peers, ?_, ?_,
    sync_blocks_loop_no_err fetch hs s hnoerr, ?_⟩
  · unfold batch_heights
    rw [List.length_map, List.length_range]
    omega
  · unfold batch_heights
    refine List.Pairwise.map _ (fun a b hab => ?_) (List.pairwise_lt_range _)
    omega
  · intro bd rest hfail
    simp [global_sync_submit, hfail]

/-- C9 witness: the amended theorem evaluated on the concrete pass of the
counterexample: heights 2 and 3, no fetch error, first submission rejected. -/
theorem sync_pass_contract_witness :
    (sync_blocks_loop cexFetch s1 [2, 3]).2 = [peerBd2, peerBd3] ∧
    global_sync_submit s1 [peerBd2, peerBd3] =
      ((submit_external_block s1 peerBd2).2, [peerBd2]) := by
  have h := sync_pass_contract s1 [peerA] cexFetch [2, 3] 1 3 (by decide)
  exact ⟨(h.2.2.2.1).trans (by decide), h.2.2.2.2 peerBd2 [peerBd3] (by decide)⟩

/-- C10: counterexample to only blocks with output-bearing transactions
failing: a peer block at the next height whose single transaction has no
outputs at all is also rejected and persists nothing, because the blocks
INSERT OR REPLACE itself omits the NOT NULL merkle_root column and aborts
before any transaction is processed; no block whatsoever can be accepted
through submitblock. -/
theorem no_output_block_also_rejected :
    (submit_external_block s1 noOutputBlockData).1 =
      { success := false, error := some "NOT NULL constraint failed: blocks.merkle_root" } ∧
    (submit_external_block s1 noOutputBlockData).2 = s1 := by decide

/-- C10 amended: every block submitted through the submitblock RPC returns a
failure result and persists nothing: the blocks INSERT OR REPLACE omits
merkle_root (NOT NULL, no default) and aborts first, and the per-output
utxos INSERT OR REPLACE omits created_at (NOT NULL, no default), so any
transaction with at least one output would abort as well; no block at all is
accepted through this path. -/
theorem submitblock_always_fails (s : ChainState) (bd : BlockData) (txid : String)
    (inputs : List InputRef) (o : Output) (rest : List Output) :
    (submit_external_block s bd).1.success = false ∧
    (submit_external_block s bd).2 = s ∧
    submitTx s { txid := txid, inputs := inputs, outputs := o :: rest } =
      Except.error (SqlErr.notNullViolation "utxos.created_at") := by
  have hstmts : submitStmts s bd =
      Except.error (SqlErr.notNullViolation "blocks.merkle_root") := rfl
  refine ⟨?_, ?_, rfl⟩
  · unfold submit_external_block
    split
    · rfl
    · rw [hstmts]
  · unfold submit_external_block
    split
    · rfl
    · rw [hstmts]

end PtcPow
